import Mathlib

/-!
# Verification of the everyst network scanner job engine

Shallow embedding of `src/backend/api/services/network_scanner.py`:
the `ScanJob` state machine (`mark_started`, `mark_completed`, `mark_failed`,
`mark_cancelled`, `update_progress`, `save_partial_result`, `is_stale`), the
`NetworkScanner` registry (`cancel_scan`, `cleanup_stale_jobs`) and the phased
scan pipeline (`_perform_network_scan` / `_run_scan_job`).

Modelling conventions:
* `datetime.now()` is an explicit `Int` timestamp argument passed to each
  operation that reads the clock; `total_seconds()` of a difference is plain
  `Int` subtraction.
* Python dicts become association lists `List (String × α)` (unique keys in
  every state the program builds); `d[k] = v` on a possibly-new key is
  `insertAssoc`, in-place mutation of an existing entry is `updateAssoc`.
* The per-job `asyncio.Event` is observed by `cancel_event.is_set()` at a
  sequence of program points; the embedding threads a poll counter and reads
  a function `cancel : Nat → Bool` giving the value seen at each poll, in
  program order (a real event is a monotone such function).
* Exceptions: `mark_completed` returns `Option` (it subtracts a `None`
  start time, a `TypeError` in Python); the blanket `except` of
  `_perform_network_scan` is modelled by the explicit error branches of
  `perform`, including the `UnboundLocalError` on the conditionally-bound
  `connections` local.
-/

inductive ScanType
  | basic
  | intense
  | full
deriving DecidableEq, Repr

inductive ScanStatus
  | ready
  | running
  | completed
  | failed
  | cancelled
  | timed_out
  | recovering
deriving DecidableEq, Repr

/-- One open-port record as `_nmap_scan` builds it. -/
structure PortInfo where
  port : Nat
  protocol : String
  service : String
  state : String
  product : Option String
  version : Option String
deriving DecidableEq, Repr

/-- The `os` sub-dict of an nmap host result. -/
structure OsInfo where
  name : Option String := none
  type : String := "other"
  accuracy : Int := 0
deriving DecidableEq, Repr

/-- A per-host result of `_nmap_scan`. -/
structure HostData where
  hostname : Option String := none
  status : String := "offline"
  mac : Option String := none
  ports : List PortInfo := []
  os : OsInfo := {}
deriving DecidableEq, Repr

/-- A device record of `devices_by_ip` (the `metadata` dict is flattened into
its three possible fields). -/
structure Device where
  id : String
  ip : String
  mac : Option String := none
  status : String := "online"
  hostname : Option String := none
  type : String := "other"
  label : Option String := none
  meta_os : Option String := none
  meta_os_accuracy : Option Int := none
  meta_ports : Option (List PortInfo) := none
deriving DecidableEq, Repr

/-- A connection record built in the connection-discovery phase. -/
structure Connection where
  id : String
  source : String
  target : String
  status : String := "active"
  type : String := "wired"
  latency : Option Int := none
deriving DecidableEq, Repr

/-- An `{'ip': ..., 'mac': ...}` entry returned by `_arp_scan`. -/
structure ArpEntry where
  ip : String
  mac : String
deriving DecidableEq, Repr

/-- The values stored in `ScanJob.partial_results` (heterogeneous in Python). -/
inductive PartialVal
  | subnets (ss : List String)
  | arpRes (ds : List ArpEntry)
  | pingRes (ips : List String)
  | deviceMap (m : List (String × Device))
  | nmapRes (r : List (String × HostData))
deriving DecidableEq, Repr

structure ScanOptions where
  scan_type : ScanType := ScanType.basic
  ip_range : Option String := none
  subnet : Option String := none
  include_ports : Bool := true
  include_os_detection : Bool := false
  include_service_detection : Bool := false
  max_devices : Nat := 100
  timeout : Int := 300
deriving DecidableEq, Repr

structure ScanResult where
  devices : List (String × Device) := []
  connections : List Connection := []
  error : Option String := none
  warning : Option String := none
  scan_time : Int := 0
  device_count : Nat := 0
  connection_count : Nat := 0
deriving DecidableEq, Repr

structure ScanJob where
  id : String
  options : ScanOptions := {}
  status : ScanStatus := ScanStatus.ready
  progress : Int := 0
  result : ScanResult := {}
  start_time : Option Int := none
  end_time : Option Int := none
  error_message : Option String := none
  partial_results : List (String × PartialVal) := []
deriving DecidableEq, Repr

/-- Python truthiness of an optional string (`None` and `""` are falsy). -/
def strTruthy : Option String → Bool
  | none => false
  | some s => s != ""

/-- Dict lookup: `d.get(k)` / `d[k]` on an association list. -/
def lookupAssoc {α : Type} (k : String) : List (String × α) → Option α
  | [] => none
  | p :: rest => if p.1 = k then some p.2 else lookupAssoc k rest

/-- Dict assignment `d[k] = v`: replace the entry for `k` if present (keys are
unique in every dict the scanner builds), else append preserving insertion
order. -/
def insertAssoc {α : Type} (k : String) (v : α) : List (String × α) → List (String × α)
  | [] => [(k, v)]
  | p :: rest => if p.1 = k then (k, v) :: rest else p :: insertAssoc k v rest

/-- In-place mutation of the entry for `k` (no-op when `k` is absent). -/
def updateAssoc {α : Type} (k : String) (f : α → α) : List (String × α) → List (String × α)
  | [] => []
  | p :: rest => if p.1 = k then (p.1, f p.2) :: rest else p :: updateAssoc k f rest

/-- `ScanJob.mark_started` (lines 134-138): record the start time, set
`RUNNING`, reset progress to 0. -/
def ScanJob.mark_started (j : ScanJob) (now : Int) : ScanJob :=
  { j with start_time := some now, status := ScanStatus.running, progress := 0 }

/-- `ScanJob.mark_completed` (lines 140-147): set `COMPLETED`, force progress
to 100, recompute `scan_time` and the two counts from the collections.
`none` models the `TypeError` Python raises subtracting a missing
`start_time`. -/
def ScanJob.mark_completed (j : ScanJob) (now : Int) : Option ScanJob :=
  match j.start_time with
  | none => none
  | some s =>
      some { j with
        end_time := some now
        status := ScanStatus.completed
        progress := 100
        result := { j.result with
          scan_time := now - s
          device_count := j.result.devices.length
          connection_count := j.result.connections.length } }

/-- `ScanJob.mark_failed` (lines 149-155). -/
def ScanJob.mark_failed (j : ScanJob) (now : Int) (msg : String) : ScanJob :=
  { j with
    end_time := some now
    status := ScanStatus.failed
    error_message := some msg
    result :=
      match j.start_time with
      | some s => { j.result with scan_time := now - s }
      | none => j.result }

/-- `ScanJob.mark_cancelled` (lines 157-162). -/
def ScanJob.mark_cancelled (j : ScanJob) (now : Int) : ScanJob :=
  { j with
    end_time := some now
    status := ScanStatus.cancelled
    result :=
      match j.start_time with
      | some s => { j.result with scan_time := now - s }
      | none => j.result }

/-- `ScanJob.update_progress` (lines 164-166): `self.progress = min(99, progress)`. -/
def ScanJob.update_progress (j : ScanJob) (p : Int) : ScanJob :=
  { j with progress := min 99 p }

/-- `ScanJob.save_partial_result` (lines 168-170). -/
def ScanJob.save_partial_result (j : ScanJob) (k : String) (v : PartialVal) : ScanJob :=
  { j with partial_results := insertAssoc k v j.partial_results }

/-- `ScanJob.is_stale` (lines 172-179). -/
def ScanJob.is_stale (j : ScanJob) (now : Int) (timeout_seconds : Int) : Bool :=
  if j.status ≠ ScanStatus.running then false
  else
    match j.start_time with
    | none => true
    | some s => decide (now - s > timeout_seconds)

/-! ## The job operations as a transition system (for the progress invariant) -/

/-- One externally callable `ScanJob` mutator, with the clock reading it takes. -/
inductive JobOp
  | markStarted (now : Int)
  | updateProgress (p : Int)
  | markCompleted (now : Int)
  | markFailed (now : Int) (msg : String)
  | markCancelled (now : Int)
deriving DecidableEq, Repr

/-- Apply one operation; `none` when the call raises (only `mark_completed`
without a start time does). -/
def applyOp (op : JobOp) (j : ScanJob) : Option ScanJob :=
  match op with
  | JobOp.markStarted now => some (j.mark_started now)
  | JobOp.updateProgress p => some (j.update_progress p)
  | JobOp.markCompleted now => j.mark_completed now
  | JobOp.markFailed now msg => some (j.mark_failed now msg)
  | JobOp.markCancelled now => some (j.mark_cancelled now)

/-- Run a sequence of job operations, stopping at a raised exception. -/
def runOps : List JobOp → ScanJob → Option ScanJob
  | [], j => some j
  | op :: rest, j =>
      match applyOp op j with
      | some j' => runOps rest j'
      | none => none

/-- A freshly created job (`ScanJob()` dataclass defaults; the uuid is an
arbitrary string). -/
def jobFresh : ScanJob := { id := "job-0" }

/-- The `update_progress` argument of an operation is nonnegative (vacuous for
the other operations). -/
def opNonneg : JobOp → Prop
  | JobOp.updateProgress p => 0 ≤ p
  | _ => True

instance : DecidablePred opNonneg := by
  intro op
  cases op <;> simp only [opNonneg] <;> infer_instance

/-! ## Claims C3-C6: the job lifecycle -/

/-- C3: `mark_started` then `mark_completed` yields progress 100,
`scan_time = end_time - start_time`, and both counts recomputed from the
collections. -/
theorem mark_started_completed_progress_scan_time (j : ScanJob) (t0 t1 : Int) :
    ∃ j', (j.mark_started t0).mark_completed t1 = some j' ∧
      j'.progress = 100 ∧
      j'.end_time = some t1 ∧ j'.start_time = some t0 ∧
      j'.result.scan_time = t1 - t0 ∧
      j'.result.device_count = j'.result.devices.length ∧
      j'.result.connection_count = j'.result.connections.length := by
  exact ⟨_, rfl, rfl, rfl, rfl, rfl, rfl, rfl⟩

/-- C4: while `Running`, `update_progress 150` clamps to 99; on any terminal
status (`Completed`, `Failed`, `Cancelled`) `update_progress` leaves the
status terminal (it never touches `status`, so a terminal job is not
resurrected). -/
theorem update_progress_clamps_and_preserves_terminal (j : ScanJob) (p : Int) :
    (j.status = ScanStatus.running → (j.update_progress 150).progress = 99) ∧
    (j.status = ScanStatus.completed ∨ j.status = ScanStatus.failed ∨
        j.status = ScanStatus.cancelled →
      (j.update_progress p).status = j.status) := by
  refine ⟨fun _ => ?_, fun _ => rfl⟩
  simp [ScanJob.update_progress]

/-- C5 counterexample: the claim "progress remains in [0,100] under every
sequence of job operations" is false: from a fresh job,
`update_progress (-1)` drives progress to -1 (`min(99, p)` has no lower
clamp). -/
theorem progress_can_go_negative :
    ∃ j', runOps [JobOp.updateProgress (-1)] jobFresh = some j' ∧ j'.progress = -1 ∧
      ¬ (0 ≤ j'.progress ∧ j'.progress ≤ 100) := by
  exact ⟨_, rfl, rfl, by decide⟩

/-- C5 amended: under every sequence of job operations whose
`update_progress` arguments are nonnegative (the only calls the scanner
makes), progress stays an integer in [0,100]; without that restriction only
the upper bound survives (see `progress_can_go_negative`). -/
theorem progress_bounds_nonneg_updates (ops : List JobOp) (j' : ScanJob)
    (hops : ∀ op ∈ ops, opNonneg op)
    (hrun : runOps ops jobFresh = some j') :
    0 ≤ j'.progress ∧ j'.progress ≤ 100 := by
  have step : ∀ (op : JobOp) (a b : ScanJob), opNonneg op →
      0 ≤ a.progress ∧ a.progress ≤ 100 → applyOp op a = some b →
      0 ≤ b.progress ∧ b.progress ≤ 100 := by
    intro op a b hop hinv happ
    cases op with
    | markStarted now =>
        cases happ
        simp [ScanJob.mark_started]
    | updateProgress p =>
        cases happ
        simp only [ScanJob.update_progress, opNonneg] at *
        constructor
        · exact le_min (by norm_num) hop
        · exact le_trans (min_le_left _ _) (by norm_num)
    | markCompleted now =>
        unfold applyOp ScanJob.mark_completed at happ
        cases hst : a.start_time with
        | none => rw [hst] at happ; cases happ
        | some s =>
            rw [hst] at happ
            cases happ
            simp
    | markFailed now msg =>
        cases happ
        exact hinv
    | markCancelled now =>
        cases happ
        exact hinv
  have main : ∀ (ops : List JobOp) (a b : ScanJob), (∀ op ∈ ops, opNonneg op) →
      0 ≤ a.progress ∧ a.progress ≤ 100 → runOps ops a = some b →
      0 ≤ b.progress ∧ b.progress ≤ 100 := by
    intro ops
    induction ops with
    | nil =>
        intro a b _ hinv hrun
        cases hrun
        exact hinv
    | cons op rest ih =>
        intro a b hops hinv hrun
        unfold runOps at hrun
        cases happ : applyOp op a with
        | none => rw [happ] at hrun; cases hrun
        | some a' =>
            rw [happ] at hrun
            exact ih a' b (fun o ho => hops o (List.mem_cons_of_mem _ ho))
              (step op a a' (hops op (List.mem_cons_self _ _)) hinv happ) hrun
  exact main ops jobFresh j' hops (by simp [jobFresh]) hrun

/-- C5 witness: a concrete nonnegative run (mark_started, update 50,
mark_completed) lands with progress in bounds. -/
theorem progress_bounds_nonneg_updates_witness :
    ∃ j', runOps [JobOp.markStarted 2, JobOp.updateProgress 50, JobOp.markCompleted 9]
        jobFresh = some j' ∧ (0 ≤ j'.progress ∧ j'.progress ≤ 100) := by
  refine ⟨_, rfl, ?_⟩
  exact progress_bounds_nonneg_updates
    [JobOp.markStarted 2, JobOp.updateProgress 50, JobOp.markCompleted 9] _
    (by decide) rfl

/-- A running job that started at time 0, observed at time 3601 (the spec's
concrete staleness example). -/
def runningJobAt0 : ScanJob :=
  { id := "job-s", status := ScanStatus.running, start_time := some 0 }

/-- C6: `is_stale` holds iff the job is `Running` and either has no start time
or has been running strictly longer than the threshold; in particular a
running job started 3601 s ago is stale under a 1800 s threshold and not
under a 7200 s one. -/
theorem is_stale_characterization (j : ScanJob) (now threshold : Int) :
    (j.is_stale now threshold = true ↔
      j.status = ScanStatus.running ∧
        (j.start_time = none ∨ ∃ s, j.start_time = some s ∧ now - s > threshold)) ∧
    runningJobAt0.is_stale 3601 1800 = true ∧
    runningJobAt0.is_stale 3601 7200 = false := by
  refine ⟨?_, by decide, by decide⟩
  constructor
  · intro h
    unfold ScanJob.is_stale at h
    by_cases hs : j.status = ScanStatus.running
    · refine ⟨hs, ?_⟩
      rw [if_neg (by simp [hs])] at h
      cases hst : j.start_time with
      | none => exact Or.inl rfl
      | some s =>
          rw [hst] at h
          exact Or.inr ⟨s, rfl, by simpa using h⟩
    · rw [if_pos (by simp [hs])] at h
      cases h
  · rintro ⟨hs, hrest⟩
    unfold ScanJob.is_stale
    rw [if_neg (by simp [hs])]
    rcases hrest with hnone | ⟨s, hst, hgt⟩
    · rw [hnone]
    · rw [hst]
      simpa using hgt

/-! ## The NetworkScanner registry (`active_jobs` / `completed_jobs`) -/

/-- The mutable state of a `NetworkScanner` instance (lines 191-196).
`_running_tasks` keeps only the job ids: the task objects themselves are
opaque handles. A cancellation event is its boolean `is_set` state. -/
structure ScannerState where
  active_jobs : List (String × ScanJob) := []
  completed_jobs : List (String × ScanJob) := []
  running_tasks : List String := []
  cancel_events : List (String × Bool) := []
deriving DecidableEq, Repr

/-- `self._cancel_events[job_id].set()` guarded by a membership test: sets the
event for `job_id` when present, otherwise does nothing. -/
def setEvent (job_id : String) (evs : List (String × Bool)) : List (String × Bool) :=
  updateAssoc job_id (fun _ => true) evs

/-- `NetworkScanner.cancel_scan` (lines 227-248): `false` if the job is not an
active job or not `RUNNING`; otherwise set its cancellation event and return
`true`. Nothing else in the state is touched. -/
def cancel_scan (s : ScannerState) (job_id : String) : Bool × ScannerState :=
  match lookupAssoc job_id s.active_jobs with
  | none => (false, s)
  | some job =>
      if job.status ≠ ScanStatus.running then (false, s)
      else (true, { s with cancel_events := setEvent job_id s.cancel_events })

/-- The message `cleanup_stale_jobs` marks a stale job failed with (line 298). -/
def stuckMessage : String := "Scan timed out or was stuck"

/-- The cleanup of one stale job id (lines 301-311): set its cancellation
event, cancel its task (the `_running_tasks` dict itself is not modified,
only the task object), pop it from `active_jobs` and store it under
`completed_jobs`. -/
def moveStaleJob (job_id : String) (s : ScannerState) : ScannerState :=
  let evs := setEvent job_id s.cancel_events
  match lookupAssoc job_id s.active_jobs with
  | some job =>
      { s with
        cancel_events := evs
        active_jobs := s.active_jobs.filter (fun p => p.1 != job_id)
        completed_jobs := insertAssoc job_id job s.completed_jobs }
  | none => { s with cancel_events := evs }

/-- The `for job_id in stale_jobs` loop of lines 301-311. -/
def moveStaleJobs : List String → ScannerState → ScannerState
  | [], s => s
  | jid :: rest, s => moveStaleJobs rest (moveStaleJob jid s)

/-- The ids collected by the first loop of `cleanup_stale_jobs`
(lines 294-297): the active entries whose job is stale. -/
def staleIdsOf (now thr : Int) (A : List (String × ScanJob)) : List String :=
  (A.filter (fun p => p.2.is_stale now thr)).map Prod.fst

/-- The in-place `job.mark_failed("Scan timed out or was stuck")` of the first
loop (line 298), applied to every stale active entry. -/
def markStale (now thr : Int) (A : List (String × ScanJob)) : List (String × ScanJob) :=
  A.map (fun p =>
    if p.2.is_stale now thr then (p.1, p.2.mark_failed now stuckMessage) else p)

/-- `NetworkScanner.cleanup_stale_jobs` (lines 284-313): mark every stale
active job failed (first loop), then move each stale id from the active to
the completed registry (second loop); return how many were cleaned. -/
def cleanup_stale_jobs (s : ScannerState) (now timeout_seconds : Int) :
    Nat × ScannerState :=
  let stale_ids := staleIdsOf now timeout_seconds s.active_jobs
  let marked := markStale now timeout_seconds s.active_jobs
  (stale_ids.length, moveStaleJobs stale_ids { s with active_jobs := marked })

/-! ### Association-list lemmas -/

theorem lookup_insert_self {α : Type} (k : String) (v : α) (l : List (String × α)) :
    lookupAssoc k (insertAssoc k v l) = some v := by
  induction l with
  | nil => simp [insertAssoc, lookupAssoc]
  | cons p rest ih =>
      by_cases h : p.1 = k
      · simp [insertAssoc, lookupAssoc, h]
      · simp [insertAssoc, lookupAssoc, h, ih]

theorem lookup_insert_ne {α : Type} {k k' : String} (h : k ≠ k') (v : α)
    (l : List (String × α)) :
    lookupAssoc k (insertAssoc k' v l) = lookupAssoc k l := by
  have h' : ¬ (k' = k) := fun he => h he.symm
  induction l with
  | nil => simp [insertAssoc, lookupAssoc, h']
  | cons p rest ih =>
      by_cases hp : p.1 = k'
      · simp [insertAssoc, lookupAssoc, hp, h']
      · by_cases hk : p.1 = k
        · simp [insertAssoc, lookupAssoc, hp, hk, h]
        · simp [insertAssoc, lookupAssoc, hp, hk, ih]

theorem lookup_filter_self {α : Type} (k : String) (l : List (String × α)) :
    lookupAssoc k (l.filter (fun p => p.1 != k)) = none := by
  induction l with
  | nil => simp [lookupAssoc]
  | cons p rest ih =>
      by_cases h : p.1 = k
      · simpa [List.filter_cons, h] using ih
      · simpa [List.filter_cons, h, lookupAssoc] using ih

theorem lookup_filter_ne {α : Type} {k k' : String} (h : k ≠ k') (l : List (String × α)) :
    lookupAssoc k (l.filter (fun p => p.1 != k')) = lookupAssoc k l := by
  have h' : ¬ (k' = k) := fun he => h he.symm
  induction l with
  | nil => simp
  | cons p rest ih =>
      by_cases hp : p.1 = k'
      · have hk : ¬ (p.1 = k) := by rw [hp]; exact h'
        simp [List.filter_cons, hp, lookupAssoc, hk, h', ih]
      · by_cases hk : p.1 = k
        · simp [List.filter_cons, hp, lookupAssoc, hk, h, ih]
        · simp [List.filter_cons, hp, lookupAssoc, hk, ih]

theorem lookup_eq_none_iff {α : Type} (k : String) (l : List (String × α)) :
    lookupAssoc k l = none ↔ ∀ p ∈ l, p.1 ≠ k := by
  induction l with
  | nil => simp [lookupAssoc]
  | cons p rest ih =>
      by_cases h : p.1 = k
      · simp [lookupAssoc, h]
      · simp [lookupAssoc, h, ih]

theorem nodup_lookup_mem {α : Type} {k : String} {v : α} {l : List (String × α)}
    (hnd : (l.map Prod.fst).Nodup) (hmem : (k, v) ∈ l) :
    lookupAssoc k l = some v := by
  induction l with
  | nil => cases hmem
  | cons p rest ih =>
      rw [List.map_cons, List.nodup_cons] at hnd
      rcases List.mem_cons.mp hmem with heq | hrest
      · rw [← heq]
        simp [lookupAssoc]
      · have hne : p.1 ≠ k := by
          intro he
          exact hnd.1 (he ▸ (List.mem_map.mpr ⟨(k, v), hrest, rfl⟩))
        simp [lookupAssoc, hne, ih hnd.2 hrest]

/-! ### Lemmas about the stale-job sweep -/

theorem moveStaleJob_active (jid : String) (s : ScannerState) :
    (moveStaleJob jid s).active_jobs = s.active_jobs.filter (fun p => p.1 != jid) := by
  unfold moveStaleJob
  cases hl : lookupAssoc jid s.active_jobs with
  | some job => rfl
  | none =>
      have hall := (lookup_eq_none_iff jid s.active_jobs).mp hl
      exact (List.filter_eq_self.mpr (fun p hp => by simp [hall p hp])).symm

theorem moveStaleJobs_active (ids : List String) (s : ScannerState) :
    (moveStaleJobs ids s).active_jobs =
      s.active_jobs.filter (fun p => !(ids.contains p.1)) := by
  induction ids generalizing s with
  | nil =>
      rw [moveStaleJobs]
      exact (List.filter_eq_self.mpr (fun p _ => by simp)).symm
  | cons jid rest ih =>
      rw [moveStaleJobs, ih, moveStaleJob_active, List.filter_filter]
      refine List.filter_congr (fun p _ => ?_)
      by_cases h : p.1 = jid <;> simp [List.contains_cons, Bool.and_comm, h]

theorem moveStaleJobs_lookup_preserved {k : String} :
    ∀ (ids : List String) (s : ScannerState), k ∉ ids →
      lookupAssoc k (moveStaleJobs ids s).completed_jobs =
        lookupAssoc k s.completed_jobs ∧
      lookupAssoc k (moveStaleJobs ids s).active_jobs = lookupAssoc k s.active_jobs
  | [], _, _ => ⟨rfl, rfl⟩
  | jid :: rest, s, hk => by
      have hkj : k ≠ jid := fun he => hk (he ▸ List.mem_cons_self _ _)
      have hkr : k ∉ rest := fun hr => hk (List.mem_cons_of_mem _ hr)
      obtain ⟨h1, h2⟩ := moveStaleJobs_lookup_preserved rest (moveStaleJob jid s) hkr
      refine ⟨?_, ?_⟩
      · rw [moveStaleJobs, h1]
        unfold moveStaleJob
        cases lookupAssoc jid s.active_jobs with
        | some job => exact lookup_insert_ne hkj job s.completed_jobs
        | none => rfl
      · rw [moveStaleJobs, h2, moveStaleJob_active]
        exact lookup_filter_ne hkj s.active_jobs

theorem moveStaleJobs_completed_of_mem {k : String} {j : ScanJob} :
    ∀ (ids : List String) (s : ScannerState), ids.Nodup → k ∈ ids →
      lookupAssoc k s.active_jobs = some j →
      lookupAssoc k (moveStaleJobs ids s).completed_jobs = some j ∧
      lookupAssoc k (moveStaleJobs ids s).active_jobs = none
  | [], _, _, hk, _ => absurd hk (List.not_mem_nil _)
  | jid :: rest, s, hnd, hk, hlook => by
      rw [List.nodup_cons] at hnd
      by_cases hkj : k = jid
      · subst hkj
        obtain ⟨h1, h2⟩ := moveStaleJobs_lookup_preserved rest (moveStaleJob k s) hnd.1
        rw [moveStaleJobs]
        refine ⟨?_, ?_⟩
        · rw [h1]
          unfold moveStaleJob
          rw [hlook]
          exact lookup_insert_self k j s.completed_jobs
        · rw [h2, moveStaleJob_active]
          exact lookup_filter_self k s.active_jobs
      · have hkr : k ∈ rest := by
          rcases List.mem_cons.mp hk with h | h
          · exact absurd h hkj
          · exact h
        have hlook' : lookupAssoc k (moveStaleJob jid s).active_jobs = some j := by
          rw [moveStaleJob_active, lookup_filter_ne hkj]
          exact hlook
        exact moveStaleJobs_completed_of_mem rest (moveStaleJob jid s) hnd.2 hkr hlook'

/-- A job just marked failed is never stale again (staleness needs `RUNNING`). -/
theorem mark_failed_not_stale (j : ScanJob) (t t' thr : Int) (msg : String) :
    (j.mark_failed t msg).is_stale t' thr = false := rfl

theorem markStale_fst (now thr : Int) (A : List (String × ScanJob)) :
    (markStale now thr A).map Prod.fst = A.map Prod.fst := by
  rw [markStale, List.map_map]
  refine List.map_congr_left (fun p _ => ?_)
  by_cases h : p.2.is_stale now thr = true <;> simp [h]

theorem staleIds_nodup {now thr : Int} {A : List (String × ScanJob)}
    (hnd : (A.map Prod.fst).Nodup) : (staleIdsOf now thr A).Nodup :=
  ((List.filter_sublist A).map Prod.fst).nodup hnd

theorem lookup_update_ne {α : Type} {k k' : String} (h : k ≠ k') (f : α → α)
    (l : List (String × α)) :
    lookupAssoc k (updateAssoc k' f l) = lookupAssoc k l := by
  have h' : ¬ (k' = k) := fun he => h he.symm
  induction l with
  | nil => rfl
  | cons p rest ih =>
      by_cases hp : p.1 = k'
      · have hk : ¬ (p.1 = k) := by rw [hp]; exact h'
        simp [updateAssoc, lookupAssoc, hp, hk, h', ih]
      · by_cases hk : p.1 = k
        · simp [updateAssoc, lookupAssoc, hp, hk, h, ih]
        · simp [updateAssoc, lookupAssoc, hp, hk, ih]

theorem lookup_update_self {α : Type} (k : String) (f : α → α) (l : List (String × α)) :
    lookupAssoc k (updateAssoc k f l) = (lookupAssoc k l).map f := by
  induction l with
  | nil => rfl
  | cons p rest ih =>
      by_cases hp : p.1 = k
      · simp [updateAssoc, lookupAssoc, hp]
      · simp [updateAssoc, lookupAssoc, hp, ih]

theorem cleanup_fst (s : ScannerState) (now thr : Int) :
    (cleanup_stale_jobs s now thr).1 = (staleIdsOf now thr s.active_jobs).length := rfl

theorem cleanup_snd (s : ScannerState) (now thr : Int) :
    (cleanup_stale_jobs s now thr).2 =
      moveStaleJobs (staleIdsOf now thr s.active_jobs)
        { s with active_jobs := markStale now thr s.active_jobs } := rfl

/-! ## Claims C7 and C10: registry operations -/

/-- C7: `cleanup_stale_jobs` run twice in a row with the same clock reading
and threshold cleans each stale job exactly once: the second call returns 0
and leaves the state untouched, and the first call marks every stale active
job `Failed` with the stuck message, stores it in the completed registry
and removes it from the active registry. -/
theorem cleanup_stale_jobs_idempotent (s : ScannerState) (now thr : Int)
    (hnd : (s.active_jobs.map Prod.fst).Nodup) :
    (cleanup_stale_jobs (cleanup_stale_jobs s now thr).2 now thr).1 = 0 ∧
    (cleanup_stale_jobs (cleanup_stale_jobs s now thr).2 now thr).2 =
      (cleanup_stale_jobs s now thr).2 ∧
    (∀ k j, (k, j) ∈ s.active_jobs → j.is_stale now thr = true →
      lookupAssoc k (cleanup_stale_jobs s now thr).2.completed_jobs =
        some (j.mark_failed now stuckMessage) ∧
      lookupAssoc k (cleanup_stale_jobs s now thr).2.active_jobs = none) := by
  have hactive1 : (cleanup_stale_jobs s now thr).2.active_jobs =
      (markStale now thr s.active_jobs).filter
        (fun p => !((staleIdsOf now thr s.active_jobs).contains p.1)) := by
    rw [cleanup_snd, moveStaleJobs_active]
  have hnostale : ∀ p ∈ (cleanup_stale_jobs s now thr).2.active_jobs,
      p.2.is_stale now thr = false := by
    intro p hp
    rw [hactive1] at hp
    have hmem := List.mem_filter.mp hp
    obtain ⟨q, hq, hqe⟩ := List.mem_map.mp hmem.1
    by_cases hst : q.2.is_stale now thr = true
    · exfalso
      have hkey : q.1 ∈ staleIdsOf now thr s.active_jobs :=
        List.mem_map.mpr ⟨q, List.mem_filter.mpr ⟨hq, by simpa using hst⟩, rfl⟩
      have hp1 : p.1 = q.1 := by rw [← hqe]; simp [hst]
      have hnc := hmem.2
      rw [hp1] at hnc
      simp at hnc
      exact hnc hkey
    · have hpq : p = q := by rw [← hqe]; simp [hst]
      rw [hpq]
      simpa using hst
  have hids2 : staleIdsOf now thr (cleanup_stale_jobs s now thr).2.active_jobs = [] := by
    unfold staleIdsOf
    have : (cleanup_stale_jobs s now thr).2.active_jobs.filter
        (fun p => p.2.is_stale now thr) = [] := by
      rw [List.filter_eq_nil_iff]
      intro p hp
      simp [hnostale p hp]
    rw [this]
    rfl
  have hmarked2 : markStale now thr (cleanup_stale_jobs s now thr).2.active_jobs =
      (cleanup_stale_jobs s now thr).2.active_jobs := by
    unfold markStale
    conv_rhs => rw [← List.map_id ((cleanup_stale_jobs s now thr).2.active_jobs)]
    refine List.map_congr_left (fun p hp => ?_)
    simp [hnostale p hp]
  refine ⟨?_, ?_, ?_⟩
  · rw [cleanup_fst, hids2]
    rfl
  · rw [cleanup_snd ((cleanup_stale_jobs s now thr).2), hids2, hmarked2]
    rfl
  · intro k j hmem hstale
    have hmark_mem : (k, j.mark_failed now stuckMessage) ∈ markStale now thr s.active_jobs :=
      List.mem_map.mpr ⟨(k, j), hmem, by simp [hstale]⟩
    have hmarked_nodup : ((markStale now thr s.active_jobs).map Prod.fst).Nodup := by
      rw [markStale_fst]; exact hnd
    have hlook : lookupAssoc k (markStale now thr s.active_jobs) =
        some (j.mark_failed now stuckMessage) := nodup_lookup_mem hmarked_nodup hmark_mem
    have hkin : k ∈ staleIdsOf now thr s.active_jobs :=
      List.mem_map.mpr ⟨(k, j), List.mem_filter.mpr ⟨hmem, by simpa using hstale⟩, rfl⟩
    have hres := moveStaleJobs_completed_of_mem (staleIdsOf now thr s.active_jobs)
      { s with active_jobs := markStale now thr s.active_jobs }
      (staleIds_nodup hnd) hkin (by simpa using hlook)
    rw [cleanup_snd]
    exact hres

/-- A stale running job (started at 0, observed at 3601 under an 1800 s
threshold) for the registry witnesses. -/
def staleScanJob : ScanJob :=
  { id := "a", status := ScanStatus.running, start_time := some 0 }

/-- A running job that is not yet stale at time 3601. -/
def freshScanJob : ScanJob :=
  { id := "b", status := ScanStatus.running, start_time := some 3600 }

/-- A registry with one stale and one healthy running job. -/
def scannerStateW : ScannerState :=
  { active_jobs := [("a", staleScanJob), ("b", freshScanJob)]
    completed_jobs := []
    running_tasks := ["a", "b"]
    cancel_events := [("a", false), ("b", false)] }

/-- C7 witness: the double-cleanup theorem applied to `scannerStateW`. -/
theorem cleanup_stale_jobs_idempotent_witness :
    (cleanup_stale_jobs (cleanup_stale_jobs scannerStateW 3601 1800).2 3601 1800).1 = 0 ∧
    (cleanup_stale_jobs (cleanup_stale_jobs scannerStateW 3601 1800).2 3601 1800).2 =
      (cleanup_stale_jobs scannerStateW 3601 1800).2 ∧
    (∀ k j, (k, j) ∈ scannerStateW.active_jobs → j.is_stale 3601 1800 = true →
      lookupAssoc k (cleanup_stale_jobs scannerStateW 3601 1800).2.completed_jobs =
        some (j.mark_failed 3601 stuckMessage) ∧
      lookupAssoc k (cleanup_stale_jobs scannerStateW 3601 1800).2.active_jobs = none) :=
  cleanup_stale_jobs_idempotent scannerStateW 3601 1800 (by decide)

/-- C10: `cancel_scan` on an active `Running` job returns `true` and mutates
nothing but the job's cancellation event: the active and completed
registries, the task handles and the job itself (status, progress, result,
timestamps, error message) are untouched; the event for the job reads
`true` afterwards and every other event is unchanged. -/
theorem cancel_scan_preserves_job (s : ScannerState) (job_id : String) (j : ScanJob)
    (hj : lookupAssoc job_id s.active_jobs = some j)
    (hr : j.status = ScanStatus.running) :
    (cancel_scan s job_id).1 = true ∧
    (cancel_scan s job_id).2.active_jobs = s.active_jobs ∧
    (cancel_scan s job_id).2.completed_jobs = s.completed_jobs ∧
    (cancel_scan s job_id).2.running_tasks = s.running_tasks ∧
    lookupAssoc job_id (cancel_scan s job_id).2.active_jobs = some j ∧
    lookupAssoc job_id (cancel_scan s job_id).2.cancel_events =
      (lookupAssoc job_id s.cancel_events).map (fun _ => true) ∧
    (∀ k, k ≠ job_id →
      lookupAssoc k (cancel_scan s job_id).2.cancel_events =
        lookupAssoc k s.cancel_events) := by
  have hcs : cancel_scan s job_id =
      (true, { s with cancel_events := setEvent job_id s.cancel_events }) := by
    unfold cancel_scan
    rw [hj]
    simp [hr]
  rw [hcs]
  exact ⟨rfl, rfl, rfl, rfl, hj,
    lookup_update_self job_id _ s.cancel_events,
    fun k hk => lookup_update_ne hk _ s.cancel_events⟩

/-- C10 witness: cancelling the running job `"b"` of `scannerStateW`. -/
theorem cancel_scan_preserves_job_witness :
    (cancel_scan scannerStateW "b").1 = true ∧
    (cancel_scan scannerStateW "b").2.active_jobs = scannerStateW.active_jobs ∧
    (cancel_scan scannerStateW "b").2.completed_jobs = scannerStateW.completed_jobs ∧
    (cancel_scan scannerStateW "b").2.running_tasks = scannerStateW.running_tasks ∧
    lookupAssoc "b" (cancel_scan scannerStateW "b").2.active_jobs = some freshScanJob ∧
    lookupAssoc "b" (cancel_scan scannerStateW "b").2.cancel_events =
      (lookupAssoc "b" scannerStateW.cancel_events).map (fun _ => true) ∧
    (∀ k, k ≠ "b" →
      lookupAssoc k (cancel_scan scannerStateW "b").2.cancel_events =
        lookupAssoc k scannerStateW.cancel_events) :=
  cancel_scan_preserves_job scannerStateW "b" freshScanJob (by decide) (by decide)

/-! ## The phased scan pipeline (`_perform_network_scan` / `_run_scan_job`)

The OS-level probes (`_get_local_subnets`, `_arp_scan`, `_ping_sweep`,
`_get_hostname`, `_nmap_scan`, `_get_default_gateway`, `_measure_latency`)
are external I/O; a `ScanEnv` records their responses for one job. The nmap
intensity arguments (lines 500-521) are fixed per job and absorbed into the
`nmap_scan` oracle. -/

structure ScanEnv where
  local_subnets : List String
  arp_scan : String → List ArpEntry
  ping_sweep : String → List String
  get_hostname : String → Option String
  nmap_scan : List String → List (String × HostData)
  default_gateway : Option String
  latency : String → String → Option Int

/-- A fresh `devices_by_ip` entry (lines 441-449 and 467-475): synthetic id
`device-<n>`, status `online`, everything else to be filled in later. -/
def mkDevice (n : Nat) (ip : String) (mac : Option String) : Device :=
  { id := "device-" ++ toString n, ip := ip, mac := mac, status := "online",
    hostname := none, type := "other" }

/-- The `for device in devices` merge of one subnet's ARP responses
(lines 437-449): skip falsy ips, else bump the device counter and assign the
dict entry. -/
def mergeArp : List ArpEntry → List (String × Device) → Nat →
    List (String × Device) × Nat
  | [], devs, n => (devs, n)
  | e :: rest, devs, n =>
      if e.ip ≠ "" then
        mergeArp rest (insertAssoc e.ip (mkDevice (n + 1) e.ip (some e.mac)) devs) (n + 1)
      else mergeArp rest devs n

/-- The ARP subnet loop (lines 427-449): cancellation is checked before each
subnet; raw results are saved under `arp_scan_<subnet>` before merging. -/
def arpLoop (env : ScanEnv) (cancel : Nat → Bool) :
    List String → ScanJob → List (String × Device) → Nat → Nat →
      ScanJob × List (String × Device) × Nat × Nat
  | [], job, devs, n, ctr => (job, devs, n, ctr)
  | subnet :: rest, job, devs, n, ctr =>
      if cancel ctr then (job, devs, n, ctr + 1)
      else
        let found := env.arp_scan subnet
        let job1 := job.save_partial_result ("arp_scan_" ++ subnet) (PartialVal.arpRes found)
        let md := mergeArp found devs n
        arpLoop env cancel rest job1 md.1 md.2 (ctr + 1)

/-- The ping-result merge (lines 464-475): only ips not already known are
added. -/
def mergePing : List String → List (String × Device) → Nat →
    List (String × Device) × Nat
  | [], devs, n => (devs, n)
  | ip :: rest, devs, n =>
      if (lookupAssoc ip devs).isSome then mergePing rest devs n
      else mergePing rest (insertAssoc ip (mkDevice (n + 1) ip none) devs) (n + 1)

/-- The ping-sweep fallback loop (lines 455-475), same shape as `arpLoop`. -/
def pingLoop (env : ScanEnv) (cancel : Nat → Bool) :
    List String → ScanJob → List (String × Device) → Nat → Nat →
      ScanJob × List (String × Device) × Nat × Nat
  | [], job, devs, n, ctr => (job, devs, n, ctr)
  | subnet :: rest, job, devs, n, ctr =>
      if cancel ctr then (job, devs, n, ctr + 1)
      else
        let found := env.ping_sweep subnet
        let job1 := job.save_partial_result ("ping_scan_" ++ subnet) (PartialVal.pingRes found)
        let md := mergePing found devs n
        pingLoop env cancel rest job1 md.1 md.2 (ctr + 1)

/-- The hostname-resolution loop (lines 485-491): iterate the snapshot of the
items, cancellation checked per device, a truthy reverse lookup updates the
device in place, failures are silently tolerated. -/
def hostnameLoop (env : ScanEnv) (cancel : Nat → Bool) :
    List (String × Device) → List (String × Device) → Nat →
      List (String × Device) × Nat
  | [], devs, ctr => (devs, ctr)
  | (ip, _) :: rest, devs, ctr =>
      if cancel ctr then (devs, ctr + 1)
      else
        let h := env.get_hostname ip
        if strTruthy h then
          hostnameLoop env cancel rest
            (updateAssoc ip (fun d => { d with hostname := h }) devs) (ctr + 1)
        else hostnameLoop env cancel rest devs (ctr + 1)

/-- The slice `target_ips[start_idx:end_idx]` of batch `i` (lines 534-536):
`start_idx = i*10`, `end_idx = min((i+1)*10, len(target_ips))`. -/
def chunkAt (targets : List String) (i : Nat) : List String :=
  (targets.drop (i * 10)).take (min ((i + 1) * 10) targets.length - i * 10)

/-- The per-host merge of nmap data into a device (lines 549-573): update
hostname/status when truthy, overwrite the type from the OS fingerprint,
attach OS name/accuracy and the open-port list to the metadata. -/
def applyHostData (h : HostData) (d : Device) : Device :=
  let d1 := if strTruthy h.hostname then { d with hostname := h.hostname } else d
  let d2 := if h.status ≠ "" then { d1 with status := h.status } else d1
  let d3 := if h.os.type ≠ "" then { d2 with type := h.os.type } else d2
  let d4 :=
    if strTruthy h.os.name then
      { d3 with meta_os := h.os.name, meta_os_accuracy := some h.os.accuracy }
    else d3
  if h.ports.isEmpty then d4 else { d4 with meta_ports := some h.ports }

/-- `for ip, host_data in nmap_results.items(): if ip in devices_by_ip: ...`
(line 549): only already-known ips are updated, in place. -/
def mergeNmap : List (String × HostData) → List (String × Device) → List (String × Device)
  | [], devs => devs
  | (ip, h) :: rest, devs => mergeNmap rest (updateAssoc ip (applyHostData h) devs)

/-- Progress after batch `i` of `tb` (line 576):
`30 + int(60 * ((i+1)/total_batches))`. For every batch count a machine can
hold this Python float expression equals the integer floor computed here
(the exact rational is at distance ≥ 1/tb from any other integer, far above
the double rounding error). -/
def batchProgress (tb i : Nat) : Nat := 30 + 60 * (i + 1) / tb

/-- The partial-result key `f"nmap_batch_{batch_idx}"` of line 546. -/
def batchKey (i : Nat) : String := "nmap_batch_" ++ toString i

/-- The body of one deep-scan batch iteration (lines 534-577): slice the
batch, invoke nmap, save the raw results under `nmap_batch_<i>`, merge into
the device map, update progress. -/
def batchStep (env : ScanEnv) (targets : List String) (tb : Nat) (i : Nat)
    (job : ScanJob) (devs : List (String × Device)) : ScanJob × List (String × Device) :=
  let res := env.nmap_scan (chunkAt targets i)
  let job1 := job.save_partial_result (batchKey i) (PartialVal.nmapRes res)
  let devs1 := mergeNmap res devs
  (job1.update_progress (batchProgress tb i), devs1)

/-- The deep-scan batch loop (lines 530-577) over the remaining batch
indices: cancellation checked before each batch, `break` on the first set
observation. Returns the final job and device map, the next poll index, and
the list of batches actually handed to the external scanner. -/
def batchLoop (env : ScanEnv) (cancel : Nat → Bool) (targets : List String) (tb : Nat) :
    List Nat → ScanJob → List (String × Device) → Nat →
      ScanJob × List (String × Device) × Nat × List (List String)
  | [], job, devs, ctr => (job, devs, ctr, [])
  | i :: rest, job, devs, ctr =>
      if cancel ctr then (job, devs, ctr + 1, [])
      else
        let st := batchStep env targets tb i job devs
        let out := batchLoop env cancel targets tb rest st.1 st.2 (ctr + 1)
        (out.1, out.2.1, out.2.2.1, chunkAt targets i :: out.2.2.2)

/-- The whole deep-scan phase (lines 523-577): `batch_size = 10`,
`total_batches = (len(target_ips) + batch_size - 1) // batch_size`, batches
run for `batch_idx in range(total_batches)`. -/
def deepScanPhase (env : ScanEnv) (cancel : Nat → Bool) (targets : List String)
    (job : ScanJob) (devs : List (String × Device)) (ctr : Nat) :
    ScanJob × List (String × Device) × Nat × List (List String) :=
  let tb := (targets.length + 10 - 1) / 10
  batchLoop env cancel targets tb (List.range tb) job devs ctr

/-- The connections built towards the gateway (lines 598-613): one per
non-gateway device, in device-map order, ids `conn-1`, `conn-2`, ...,
type defaulted to `wired`, latency measured against the gateway. -/
def buildConnections (lat : String → String → Option Int) (gateway gateway_id : String) :
    List (String × Device) → Nat → List Connection
  | [], _ => []
  | (ip, d) :: rest, cid =>
      if ip ≠ gateway then
        { id := "conn-" ++ toString (cid + 1), source := d.id, target := gateway_id,
          status := "active", type := "wired", latency := lat ip gateway } ::
          buildConnections lat gateway gateway_id rest (cid + 1)
      else buildConnections lat gateway gateway_id rest cid

/-- The in-place gateway update (lines 592-596): force the type to `router`
and default the hostname to `Main Gateway` when it is falsy or equals the
gateway address. -/
def gatewayify (gw : String) (d : Device) : Device :=
  let d1 := { d with type := "router" }
  if !(strTruthy d1.hostname) || d1.hostname == some gw then
    { d1 with hostname := some "Main Gateway" }
  else d1

/-- Phase 4 topology inference (lines 583-613): if the gateway resolved to a
truthy address present in the device map, mark it a router and synthesize
one connection per other device; otherwise no connections. -/
def connectionPhase (gw? : Option String) (lat : String → String → Option Int)
    (devs : List (String × Device)) : List (String × Device) × List Connection :=
  match gw? with
  | some gw =>
      if gw ≠ "" then
        match lookupAssoc gw devs with
        | some gd =>
            let devs1 := updateAssoc gw (gatewayify gw) devs
            (devs1, buildConnections lat gw gd.id devs1 0)
        | none => (devs, [])
      else (devs, [])
  | none => (devs, [])

/-- `ip.split('.')[-1]` of line 618. -/
def lastOctet (ip : String) : String := (ip.splitOn ".").getLastD ""

/-- The warning attached when no devices were found (line 628). -/
def noDevicesWarning : String :=
  "No devices found. The scan may be running in a restricted environment (WSL, VM)."

/-- The `str()` of the `UnboundLocalError` raised at line 624 when phase 4
was skipped: `connections = []` at line 587 makes `connections` a local of
`_perform_network_scan`, so reading it unassigned raises
`UnboundLocalError`, worded as here on CPython 3.11+ and as
"local variable 'connections' referenced before assignment" on CPython
3.10 and earlier. The theorems below rely only on an error being recorded,
never on this wording. -/
def unboundLocalConnectionsMsg : String :=
  "cannot access local variable 'connections' where it is not associated with a value"

/-- The label defaulting of lines 616-620 (`capitalize` agrees with Python's
on the all-lowercase type names the scanner produces). -/
def deviceLabel (d : Device) : Device :=
  if !(strTruthy d.hostname) then
    { d with label := some (d.type.capitalize ++ "-" ++ lastOctet d.ip) }
  else { d with label := d.hostname }

def labelPhase (devs : List (String × Device)) : List (String × Device) :=
  devs.map (fun p => (p.1, deviceLabel p.2))

/-- `_perform_network_scan` (lines 387-637). Every `cancel_event.is_set()`
call of the source reads the next poll of `cancel`, in program order
(including the short-circuited read at line 452). The `try`/blanket
`except` of lines 400/634 appears as the two error results: the
`ValueError` for an empty subnet list, and the `UnboundLocalError` raised
at line 624 when phase 4 was skipped and the local `connections` was never
assigned (line 587); in both cases the partially filled result is returned
with `result.error` set, not raised. -/
def perform (env : ScanEnv) (cancel : Nat → Bool) (job : ScanJob) :
    ScanResult × ScanJob :=
  let result : ScanResult := {}
  let sel :=
    if strTruthy job.options.ip_range then ([job.options.ip_range.getD ""], job)
    else if strTruthy job.options.subnet then ([job.options.subnet.getD ""], job)
    else (env.local_subnets,
      job.save_partial_result "subnets" (PartialVal.subnets env.local_subnets))
  let subnets := sel.1
  let job0 := sel.2
  if subnets.isEmpty then
    ({ result with error := some "No valid subnets found for scanning" }, job0)
  else if cancel 0 then
    (result, job0)
  else
    let job1 := job0.update_progress 5
    let arp := arpLoop env cancel subnets job1 [] 0 1
    let job2 := arp.1
    let devs1 := arp.2.1
    let fb :=
      if devs1.isEmpty then
        if cancel arp.2.2.2 then (job2, devs1, arp.2.2.1, arp.2.2.2 + 1)
        else pingLoop env cancel subnets (job2.update_progress 10) devs1
          arp.2.2.1 (arp.2.2.2 + 1)
      else arp
    let job3 := fb.1
    let devs2 := fb.2.1
    let ctr2 := fb.2.2.2
    let job4 := job3.update_progress 20
    if cancel ctr2 then (result, job4)
    else
      let hn := hostnameLoop env cancel devs2 devs2 (ctr2 + 1)
      let devs3 := hn.1
      let job5 := job4.save_partial_result "devices_before_port_scan"
        (PartialVal.deviceMap devs3)
      let ds :=
        if job.options.include_ports then
          let bl := deepScanPhase env cancel (devs3.map Prod.fst)
            (job5.update_progress 30) devs3 hn.2
          (bl.1, bl.2.1, bl.2.2.1)
        else (job5, devs3, hn.2)
      let job6 := ds.1
      let devs4 := ds.2.1
      let ctr4 := ds.2.2
      let ph4 :=
        if cancel ctr4 then (job6, devs4, (none : Option (List Connection)))
        else
          let job7 := job6.update_progress 90
          let cp := connectionPhase env.default_gateway env.latency devs4
          (job7, labelPhase cp.1, some cp.2)
      let job8 := ph4.1
      let devs7 := ph4.2.1
      let result1 := { result with devices := devs7 }
      match ph4.2.2 with
      | none =>
          ({ result1 with error := some unboundLocalConnectionsMsg }, job8)
      | some conns =>
          let result2 := { result1 with connections := conns }
          let result3 :=
            if devs7.isEmpty then { result2 with warning := some noDevicesWarning }
            else result2
          (result3, job8.update_progress 99)

/-- `_run_scan_job` (lines 332-385) along the cooperative path: mark the job
started, run the phased scan, attach the result and mark the job completed.
`perform` is total (its blanket `except` converts every phase fault into
`result.error`) and `cancel_scan` only sets the event - it never cancels the
task object - so with the overall wall-clock timeout out of scope the
driver always reaches `job.mark_completed()`; the `CancelledError` /
`TimeoutError` / generic `except` arms of lines 362-367 are unreachable
here. The `none` arm below is unreachable since `mark_started` set the
start time. -/
def run_scan_job (env : ScanEnv) (cancel : Nat → Bool) (t0 t1 : Int) (job : ScanJob) :
    ScanJob :=
  let job1 := job.mark_started t0
  let pr := perform env cancel job1
  let job2 := { pr.2 with result := pr.1 }
  match job2.mark_completed t1 with
  | some j => j
  | none => job2

/-! ## Claims C1 and C2: terminal status after cancellation / phase faults -/

/-- Probe responses for a local subnet with two ARP-visible devices. -/
def envC1 : ScanEnv :=
  { local_subnets := []
    arp_scan := fun _ => [⟨"10.0.0.1", "aa:aa:aa:aa:aa:aa"⟩, ⟨"10.0.0.2", "bb:bb:bb:bb:bb:bb"⟩]
    ping_sweep := fun _ => []
    get_hostname := fun _ => none
    nmap_scan := fun _ => []
    default_gateway := some "10.0.0.1"
    latency := fun _ _ => some 1 }

/-- A job scanning an explicit subnet with the default options
(`include_ports = True`). -/
def jobC1 : ScanJob := { id := "job-1", options := { subnet := some "10.0.0.0/24" } }

/-- The registry while `jobC1` runs, as `start_scan` built it. -/
def scannerC1 : ScannerState :=
  { active_jobs := [("job-1", jobC1.mark_started 0)]
    completed_jobs := []
    running_tasks := ["job-1"]
    cancel_events := [("job-1", false)] }

/-- The poll readings of `jobC1`'s cancellation event after `cancel_scan` set
it during the hostname phase: polls 0-4 (pre-scan check, one ARP subnet,
pre-hostname check, two devices) read `false`; every later poll - the first
being the check before deep-scan batch 0 - reads `true`. -/
def cancelC1 : Nat → Bool := fun p => decide (5 ≤ p)

/-- C1 (code evaluated at the failing input): `cancel_scan` accepts the
running job, yet the cooperatively cancelled run terminates `COMPLETED`,
not `CANCELLED` - `_perform_network_scan` swallows the cancellation by
breaking out of its loops and returning normally, and on the way skips
phase 4 so that line 624 raises `UnboundLocalError` on the unassigned
`connections` local, which the blanket `except` stores in `result.error`
(its wording varies with the CPython version, so only `isSome` is
asserted); the job-level `error_message` stays `none`. The ARP partial
results do survive on the job. -/
theorem cancelled_scan_completes_not_cancelled :
    (cancel_scan scannerC1 "job-1").1 = true ∧
    (run_scan_job envC1 cancelC1 0 10 jobC1).status = ScanStatus.completed ∧
    (run_scan_job envC1 cancelC1 0 10 jobC1).status ≠ ScanStatus.cancelled ∧
    (run_scan_job envC1 cancelC1 0 10 jobC1).result.error.isSome = true ∧
    (run_scan_job envC1 cancelC1 0 10 jobC1).error_message = none ∧
    (run_scan_job envC1 cancelC1 0 10 jobC1).result.devices.length = 2 ∧
    lookupAssoc "arp_scan_10.0.0.0/24"
        (run_scan_job envC1 cancelC1 0 10 jobC1).partial_results =
      some (PartialVal.arpRes (envC1.arp_scan "10.0.0.0/24")) := by
  refine ⟨rfl, rfl, by decide, rfl, rfl, rfl, rfl⟩

/-- Probe responses on a host with no usable interfaces: subnet auto-detection
returns the empty list. -/
def envC2 : ScanEnv :=
  { local_subnets := []
    arp_scan := fun _ => []
    ping_sweep := fun _ => []
    get_hostname := fun _ => none
    nmap_scan := fun _ => []
    default_gateway := none
    latency := fun _ _ => none }

/-- A job with neither an explicit range nor a subnet (auto-detection). -/
def jobC2 : ScanJob := { id := "job-2" }

/-- C2 (code evaluated at the failing input): with zero usable subnets the
`ValueError("No valid subnets found for scanning")` of line 414 is caught
by the blanket `except` of line 634 and stored in `result.error`, and the
driver marks the job `COMPLETED` - not `FAILED`, and with no
`error_message`. The `subnets` partial result saved before the raise does
remain on the job. -/
theorem no_subnets_scan_completes_not_failed :
    (run_scan_job envC2 (fun _ => false) 0 7 jobC2).status = ScanStatus.completed ∧
    (run_scan_job envC2 (fun _ => false) 0 7 jobC2).status ≠ ScanStatus.failed ∧
    (run_scan_job envC2 (fun _ => false) 0 7 jobC2).error_message = none ∧
    (run_scan_job envC2 (fun _ => false) 0 7 jobC2).result.error =
      some "No valid subnets found for scanning" ∧
    (run_scan_job envC2 (fun _ => false) 0 7 jobC2).partial_results =
      [("subnets", PartialVal.subnets [])] := by
  refine ⟨rfl, by decide, rfl, rfl, rfl⟩

/-! ## Claim C8: topology inference -/

theorem gatewayify_type (gw : String) (d : Device) : (gatewayify gw d).type = "router" := by
  unfold gatewayify
  dsimp only
  split <;> rfl

theorem buildConnections_map_source (lat : String → String → Option Int) (gw gid : String) :
    ∀ (l : List (String × Device)) (c : Nat),
      (buildConnections lat gw gid l c).map (fun conn => conn.source) =
        (l.filter (fun p => p.1 != gw)).map (fun p => p.2.id)
  | [], _ => rfl
  | (ip, d) :: rest, c => by
      unfold buildConnections
      by_cases h : ip = gw
      · rw [if_neg (not_not_intro h)]
        simpa [List.filter_cons, h] using buildConnections_map_source lat gw gid rest c
      · rw [if_pos h]
        simpa [List.filter_cons, h] using buildConnections_map_source lat gw gid rest (c + 1)

theorem buildConnections_target_type (lat : String → String → Option Int) (gw gid : String) :
    ∀ (l : List (String × Device)) (c : Nat) (conn : Connection),
      conn ∈ buildConnections lat gw gid l c → conn.target = gid ∧ conn.type = "wired"
  | [], _, _, h => absurd h (List.not_mem_nil _)
  | (ip, d) :: rest, c, conn, h => by
      unfold buildConnections at h
      by_cases hip : ip = gw
      · rw [if_neg (not_not_intro hip)] at h
        exact buildConnections_target_type lat gw gid rest c conn h
      · rw [if_pos hip] at h
        rcases List.mem_cons.mp h with he | hm
        · rw [he]
          exact ⟨rfl, rfl⟩
        · exact buildConnections_target_type lat gw gid rest (c + 1) conn hm

theorem filter_updateAssoc_ne {α : Type} (k : String) (f : α → α) :
    ∀ l : List (String × α),
      (updateAssoc k f l).filter (fun p => p.1 != k) = l.filter (fun p => p.1 != k)
  | [] => rfl
  | p :: rest => by
      by_cases h : p.1 = k
      · simp [updateAssoc, List.filter_cons, h]
      · simp [updateAssoc, List.filter_cons, h, filter_updateAssoc_ne k f rest]

theorem connectionPhase_some {gw : String} {lat : String → String → Option Int}
    {devs : List (String × Device)} {gd : Device}
    (hgw : gw ≠ "") (hmem : lookupAssoc gw devs = some gd) :
    connectionPhase (some gw) lat devs =
      (updateAssoc gw (gatewayify gw) devs,
        buildConnections lat gw gd.id (updateAssoc gw (gatewayify gw) devs) 0) := by
  unfold connectionPhase
  dsimp only
  rw [if_pos hgw, hmem]

/-- C8: when the resolved gateway is a device of the map, topology inference
forces that device's type to `router` and produces exactly one connection
per non-gateway device (in device-map order, type `wired`, target the
gateway's id); when the gateway is unresolved or unknown, no connections
are produced. -/
theorem topology_gateway_router_connections
    (gw : String) (lat : String → String → Option Int)
    (devs : List (String × Device)) (gd : Device)
    (hgw : gw ≠ "") (hmem : lookupAssoc gw devs = some gd) :
    lookupAssoc gw (connectionPhase (some gw) lat devs).1 = some (gatewayify gw gd) ∧
    (gatewayify gw gd).type = "router" ∧
    ((connectionPhase (some gw) lat devs).2.map (fun c => c.source)) =
      (devs.filter (fun p => p.1 != gw)).map (fun p => p.2.id) ∧
    (∀ c ∈ (connectionPhase (some gw) lat devs).2, c.target = gd.id ∧ c.type = "wired") ∧
    (∀ devs2 : List (String × Device), lookupAssoc gw devs2 = none →
      connectionPhase (some gw) lat devs2 = (devs2, [])) ∧
    (∀ devs2 : List (String × Device), connectionPhase none lat devs2 = (devs2, [])) := by
  rw [connectionPhase_some hgw hmem]
  dsimp only
  refine ⟨?_, gatewayify_type gw gd, ?_, ?_, ?_, fun devs2 => rfl⟩
  · rw [lookup_update_self, hmem]
    rfl
  · rw [buildConnections_map_source, filter_updateAssoc_ne]
  · intro c hc
    exact buildConnections_target_type lat gw gd.id _ 0 c hc
  · intro devs2 h
    unfold connectionPhase
    dsimp only
    rw [if_pos hgw, h]

/-- The spec's synthetic discovery result: two devices, the first being the
gateway. -/
def devC8 : List (String × Device) :=
  [("10.0.0.1", mkDevice 1 "10.0.0.1" (some "aa:aa:aa:aa:aa:aa")),
   ("10.0.0.2", mkDevice 2 "10.0.0.2" (some "bb:bb:bb:bb:bb:bb"))]

def latC8 : String → String → Option Int := fun _ _ => some 2

/-- C8 witness: with devices 10.0.0.1 and 10.0.0.2 and gateway 10.0.0.1,
exactly one connection device-2 → device-1 is produced and 10.0.0.1 is
classified `router`. -/
theorem topology_gateway_router_connections_witness :
    (lookupAssoc "10.0.0.1" (connectionPhase (some "10.0.0.1") latC8 devC8).1 =
      some (gatewayify "10.0.0.1" (mkDevice 1 "10.0.0.1" (some "aa:aa:aa:aa:aa:aa"))) ∧
    (gatewayify "10.0.0.1" (mkDevice 1 "10.0.0.1" (some "aa:aa:aa:aa:aa:aa"))).type =
      "router" ∧
    ((connectionPhase (some "10.0.0.1") latC8 devC8).2.map (fun c => c.source)) =
      (devC8.filter (fun p => p.1 != "10.0.0.1")).map (fun p => p.2.id) ∧
    (∀ c ∈ (connectionPhase (some "10.0.0.1") latC8 devC8).2,
      c.target = (mkDevice 1 "10.0.0.1" (some "aa:aa:aa:aa:aa:aa")).id ∧
      c.type = "wired") ∧
    (∀ devs2 : List (String × Device), lookupAssoc "10.0.0.1" devs2 = none →
      connectionPhase (some "10.0.0.1") latC8 devs2 = (devs2, [])) ∧
    (∀ devs2 : List (String × Device), connectionPhase none latC8 devs2 = (devs2, []))) ∧
    (connectionPhase (some "10.0.0.1") latC8 devC8).2.map
        (fun c => (c.source, c.target)) = [("device-2", "device-1")] ∧
    (connectionPhase (some "10.0.0.1") latC8 devC8).2.length = 1 :=
  ⟨topology_gateway_router_connections "10.0.0.1" latC8 devC8
      (mkDevice 1 "10.0.0.1" (some "aa:aa:aa:aa:aa:aa")) (by decide) rfl,
    by decide, by decide⟩

/-! ## Claim C9: deep-scan batching

`batchFold` is the batch loop with the cancellation checks stripped: the
lemmas below show `batchLoop` equals `batchFold` over the prefix of batch
indices that runs before the first `true` poll. -/

def batchFold (env : ScanEnv) (targets : List String) (tb : Nat) :
    List Nat → ScanJob × List (String × Device) → ScanJob × List (String × Device)
  | [], jd => jd
  | i :: rest, jd => batchFold env targets tb rest (batchStep env targets tb i jd.1 jd.2)

theorem batchFold_append (env : ScanEnv) (targets : List String) (tb : Nat) :
    ∀ (l1 l2 : List Nat) (jd : ScanJob × List (String × Device)),
      batchFold env targets tb (l1 ++ l2) jd =
        batchFold env targets tb l2 (batchFold env targets tb l1 jd)
  | [], _, _ => rfl
  | i :: rest, l2, jd => by
      rw [List.cons_append]
      exact batchFold_append env targets tb rest l2 _

theorem batchStep_partial_results (env : ScanEnv) (targets : List String) (tb i : Nat)
    (job : ScanJob) (devs : List (String × Device)) :
    (batchStep env targets tb i job devs).1.partial_results =
      insertAssoc (batchKey i) (PartialVal.nmapRes (env.nmap_scan (chunkAt targets i)))
        job.partial_results := rfl

theorem batchStep_progress (env : ScanEnv) (targets : List String) (tb i : Nat)
    (job : ScanJob) (devs : List (String × Device)) :
    (batchStep env targets tb i job devs).1.progress =
      min 99 ((batchProgress tb i : Nat) : Int) := rfl

theorem batchFold_partial_preserved (env : ScanEnv) (targets : List String) (tb : Nat)
    (k : String) :
    ∀ (l : List Nat) (jd : ScanJob × List (String × Device)),
      (∀ j ∈ l, batchKey j ≠ k) →
      lookupAssoc k (batchFold env targets tb l jd).1.partial_results =
        lookupAssoc k jd.1.partial_results
  | [], _, _ => rfl
  | i :: rest, jd, h => by
      simp only [batchFold]
      rw [batchFold_partial_preserved env targets tb k rest _
        (fun j hj => h j (List.mem_cons_of_mem _ hj))]
      rw [batchStep_partial_results]
      exact lookup_insert_ne (fun he => h i (List.mem_cons_self _ _) he.symm) _ _

theorem batchFold_partial_mem (env : ScanEnv) (targets : List String) (tb : Nat) :
    ∀ (l : List Nat) (jd : ScanJob × List (String × Device)) (i : Nat), i ∈ l →
      (∀ j ∈ l, batchKey j = batchKey i → j = i) →
      lookupAssoc (batchKey i) (batchFold env targets tb l jd).1.partial_results =
        some (PartialVal.nmapRes (env.nmap_scan (chunkAt targets i)))
  | [], _, i, hi, _ => absurd hi (List.not_mem_nil _)
  | j :: rest, jd, i, hi, hinj => by
      by_cases hir : i ∈ rest
      · simp only [batchFold]
        exact batchFold_partial_mem env targets tb rest _ i hir
          (fun j' hj' => hinj j' (List.mem_cons_of_mem _ hj'))
      · have hij : j = i := by
          rcases List.mem_cons.mp hi with h | h
          · exact h.symm
          · exact absurd h hir
        subst hij
        simp only [batchFold]
        rw [batchFold_partial_preserved env targets tb _ rest _
          (fun j' hj' he => hir ((hinj j' (List.mem_cons_of_mem _ hj') he) ▸ hj'))]
        rw [batchStep_partial_results]
        exact lookup_insert_self _ _ _

theorem batchFold_progress_concat (env : ScanEnv) (targets : List String) (tb : Nat)
    (l : List Nat) (i : Nat) (jd : ScanJob × List (String × Device)) :
    (batchFold env targets tb (l ++ [i]) jd).1.progress =
      min 99 ((batchProgress tb i : Nat) : Int) := by
  rw [batchFold_append]
  simp only [batchFold]
  exact batchStep_progress env targets tb i _ _

theorem batchLoop_no_cancel (env : ScanEnv) (cancel : Nat → Bool)
    (targets : List String) (tb : Nat) :
    ∀ (l : List Nat) (job : ScanJob) (devs : List (String × Device)) (ctr : Nat),
      (∀ p, p < l.length → cancel (ctr + p) = false) →
      batchLoop env cancel targets tb l job devs ctr =
        ((batchFold env targets tb l (job, devs)).1,
          (batchFold env targets tb l (job, devs)).2,
          ctr + l.length, l.map (chunkAt targets))
  | [], job, devs, ctr, _ => rfl
  | i :: rest, job, devs, ctr, h => by
      have h0 : cancel ctr = false := by simpa using h 0 (Nat.succ_pos _)
      simp only [batchLoop]
      rw [if_neg (show ¬ cancel ctr = true by simp [h0])]
      rw [batchLoop_no_cancel env cancel targets tb rest _ _ (ctr + 1)
        (fun p hp => by
          have hh := h (p + 1) (by simpa using Nat.succ_lt_succ hp)
          rwa [show ctr + (p + 1) = ctr + 1 + p by omega] at hh)]
      rw [show ctr + 1 + rest.length = ctr + (i :: rest).length by simp; omega]
      simp only [List.map_cons, batchFold]

theorem batchLoop_cancel_split (env : ScanEnv) (cancel : Nat → Bool)
    (targets : List String) (tb : Nat) :
    ∀ (l : List Nat) (k : Nat) (job : ScanJob) (devs : List (String × Device)) (ctr : Nat),
      k < l.length →
      (∀ p, p < k → cancel (ctr + p) = false) →
      cancel (ctr + k) = true →
      batchLoop env cancel targets tb l job devs ctr =
        ((batchFold env targets tb (l.take k) (job, devs)).1,
          (batchFold env targets tb (l.take k) (job, devs)).2,
          ctr + k + 1, (l.take k).map (chunkAt targets))
  | [], k, _, _, _, hk, _, _ => absurd hk (by simp)
  | i :: rest, 0, job, devs, ctr, _, _, hc => by
      have hc0 : cancel ctr = true := by simpa using hc
      simp only [batchLoop]
      rw [if_pos hc0]
      simp only [List.take_zero, batchFold, List.map_nil]
  | i :: rest, k + 1, job, devs, ctr, hk, hlt, hc => by
      have h0 : cancel ctr = false := by simpa using hlt 0 (Nat.succ_pos _)
      simp only [batchLoop]
      rw [if_neg (show ¬ cancel ctr = true by simp [h0])]
      rw [batchLoop_cancel_split env cancel targets tb rest k _ _ (ctr + 1)
        (by simpa using Nat.lt_of_succ_lt_succ hk)
        (fun p hp => by
          have hh := hlt (p + 1) (Nat.succ_lt_succ hp)
          rwa [show ctr + (p + 1) = ctr + 1 + p by omega] at hh)
        (by
          have hh := hc
          rwa [show ctr + (k + 1) = ctr + 1 + k by omega] at hh)]
      rw [show ctr + 1 + k + 1 = ctr + (k + 1) + 1 by omega]
      simp only [List.take_succ_cons, List.map_cons, batchFold]

theorem chunkAt_length_le (targets : List String) (i : Nat) :
    (chunkAt targets i).length ≤ 10 := by
  unfold chunkAt
  rw [List.length_take, List.length_drop]
  omega

theorem chunkAt_ne_nil {targets : List String} {i : Nat}
    (hi : i < (targets.length + 10 - 1) / 10) : chunkAt targets i ≠ [] := by
  have hlen : (chunkAt targets i).length ≠ 0 := by
    unfold chunkAt
    rw [List.length_take, List.length_drop]
    omega
  intro h
  exact hlen (by rw [h]; rfl)

theorem chunks_flatten (targets : List String) :
    ∀ (n a : Nat), targets.length ≤ (a + n) * 10 →
      ((List.range' a n).map (chunkAt targets)).flatten = targets.drop (a * 10)
  | 0, a, h => by
      simp only [List.range', List.map_nil, List.flatten_nil]
      exact (List.drop_eq_nil_of_le (by omega)).symm
  | n + 1, a, h => by
      rw [List.range'_succ]
      simp only [List.map_cons, List.flatten_cons]
      rw [chunks_flatten targets n (a + 1) (by omega)]
      have hdd : (targets.drop (a * 10)).drop 10 = targets.drop ((a + 1) * 10) := by
        rw [List.drop_drop]
        congr 1
        omega
      rw [← hdd]
      unfold chunkAt
      by_cases hc : 10 ≤ targets.length - a * 10
      · rw [show min ((a + 1) * 10) targets.length - a * 10 = 10 by omega]
        exact List.take_append_drop 10 _
      · rw [show min ((a + 1) * 10) targets.length - a * 10 =
            (targets.drop (a * 10)).length by rw [List.length_drop]; omega]
        have hnil : (targets.drop (a * 10)).drop 10 = [] :=
          List.drop_eq_nil_of_le (by rw [List.length_drop]; omega)
        rw [List.take_length, hnil]
        exact List.append_nil _

theorem deepScanPhase_eq (env : ScanEnv) (cancel : Nat → Bool) (targets : List String)
    (job : ScanJob) (devs : List (String × Device)) (ctr : Nat) :
    deepScanPhase env cancel targets job devs ctr =
      batchLoop env cancel targets ((targets.length + 10 - 1) / 10)
        (List.range ((targets.length + 10 - 1) / 10)) job devs ctr := rfl

/-- C9: the deep scan partitions the `n` targets into `ceil(n/10)` nonempty
batches of at most 10 addresses, runs them sequentially in order with the
cancellation signal polled before each batch; an uncancelled run invokes
every batch, leaves each batch's raw results under its `nmap_batch_<i>`
key and ends at progress 90; a run whose poll before batch `k` first reads
`true` invokes exactly batches `0..k-1`, keeps their saved partial results
on the job, and (for `k > 0`) sits at progress `30 + 60*k/tb`, inside
[30, 90]. The `hinj` hypothesis is the distinctness of the decimal batch
keys, a fact of decimal printing the witness checks for its batch count. -/
theorem deep_scan_batches_partition
    (env : ScanEnv) (cancel : Nat → Bool) (targets : List String)
    (job : ScanJob) (devs : List (String × Device)) (ctr k : Nat)
    (hinj : ∀ i, i < (targets.length + 10 - 1) / 10 →
      ∀ j, j < (targets.length + 10 - 1) / 10 → batchKey i = batchKey j → i = j) :
    ((List.range ((targets.length + 10 - 1) / 10)).map (chunkAt targets)).flatten =
      targets ∧
    (List.range ((targets.length + 10 - 1) / 10)).length =
      (targets.length + 10 - 1) / 10 ∧
    (∀ i, i < (targets.length + 10 - 1) / 10 →
      chunkAt targets i ≠ [] ∧ (chunkAt targets i).length ≤ 10) ∧
    ((∀ p, p < (targets.length + 10 - 1) / 10 → cancel (ctr + p) = false) →
      (deepScanPhase env cancel targets job devs ctr).2.2.2 =
        (List.range ((targets.length + 10 - 1) / 10)).map (chunkAt targets) ∧
      (∀ i, i < (targets.length + 10 - 1) / 10 →
        lookupAssoc (batchKey i)
            (deepScanPhase env cancel targets job devs ctr).1.partial_results =
          some (PartialVal.nmapRes (env.nmap_scan (chunkAt targets i)))) ∧
      (0 < (targets.length + 10 - 1) / 10 →
        (deepScanPhase env cancel targets job devs ctr).1.progress = 90)) ∧
    (k < (targets.length + 10 - 1) / 10 →
      (∀ p, p < k → cancel (ctr + p) = false) →
      cancel (ctr + k) = true →
      (deepScanPhase env cancel targets job devs ctr).2.2.2 =
        (List.range k).map (chunkAt targets) ∧
      (∀ i, i < k →
        lookupAssoc (batchKey i)
            (deepScanPhase env cancel targets job devs ctr).1.partial_results =
          some (PartialVal.nmapRes (env.nmap_scan (chunkAt targets i)))) ∧
      (0 < k →
        (deepScanPhase env cancel targets job devs ctr).1.progress =
          ((30 + 60 * k / ((targets.length + 10 - 1) / 10) : Nat) : Int) ∧
        30 ≤ (deepScanPhase env cancel targets job devs ctr).1.progress ∧
        (deepScanPhase env cancel targets job devs ctr).1.progress ≤ 90) ∧
      (k = 0 → (deepScanPhase env cancel targets job devs ctr).1 = job ∧
        (deepScanPhase env cancel targets job devs ctr).2.1 = devs)) := by
  refine ⟨?_, List.length_range _,
    fun i hi => ⟨chunkAt_ne_nil hi, chunkAt_length_le targets i⟩, ?_, ?_⟩
  · rw [List.range_eq_range']
    have := chunks_flatten targets ((targets.length + 10 - 1) / 10) 0 (by omega)
    simpa using this
  · intro hnc
    have hrw := batchLoop_no_cancel env cancel targets ((targets.length + 10 - 1) / 10)
      (List.range ((targets.length + 10 - 1) / 10)) job devs ctr
      (fun p hp => hnc p (by simpa [List.length_range] using hp))
    rw [deepScanPhase_eq, hrw]
    refine ⟨rfl, ?_, ?_⟩
    · intro i hi
      exact batchFold_partial_mem env targets _ (List.range _) (job, devs) i
        (List.mem_range.mpr hi)
        (fun j hj he => hinj j (List.mem_range.mp hj) i hi he)
    · intro htb0
      obtain ⟨m, hm⟩ : ∃ m, (targets.length + 10 - 1) / 10 = m + 1 :=
        ⟨(targets.length + 10 - 1) / 10 - 1, by omega⟩
      rw [hm, List.range_succ, batchFold_progress_concat]
      have hval : batchProgress (m + 1) m = 90 := by
        unfold batchProgress
        rw [Nat.mul_div_cancel 60 (Nat.succ_pos m)]
      rw [hval]
      norm_num
  · intro hk hlt hc
    have hrw := batchLoop_cancel_split env cancel targets ((targets.length + 10 - 1) / 10)
      (List.range ((targets.length + 10 - 1) / 10)) k job devs ctr
      (by simpa [List.length_range] using hk) hlt hc
    have htake : (List.range ((targets.length + 10 - 1) / 10)).take k = List.range k := by
      rw [List.take_range]
      congr 1
      exact min_eq_left (Nat.le_of_lt hk)
    rw [deepScanPhase_eq, hrw, htake]
    refine ⟨rfl, ?_, ?_, ?_⟩
    · intro i hi
      exact batchFold_partial_mem env targets _ (List.range k) (job, devs) i
        (List.mem_range.mpr hi)
        (fun j hj he =>
          hinj j (Nat.lt_trans (List.mem_range.mp hj) hk) i (Nat.lt_trans hi hk) he)
    · intro hk0
      obtain ⟨m, hm⟩ : ∃ m, k = m + 1 := ⟨k - 1, by omega⟩
      rw [hm, List.range_succ, batchFold_progress_concat]
      have hb : 60 * (m + 1) / ((targets.length + 10 - 1) / 10) ≤ 60 := by
        have h1 : 60 * (m + 1) ≤ 60 * ((targets.length + 10 - 1) / 10) :=
          Nat.mul_le_mul_left 60 (by omega)
        calc 60 * (m + 1) / ((targets.length + 10 - 1) / 10)
            ≤ 60 * ((targets.length + 10 - 1) / 10) / ((targets.length + 10 - 1) / 10) :=
              Nat.div_le_div_right h1
          _ = 60 := Nat.mul_div_cancel 60 (by omega)
      have hb90 : batchProgress ((targets.length + 10 - 1) / 10) m ≤ 90 := by
        unfold batchProgress
        exact Nat.add_le_add_left hb 30
      have hb99 : batchProgress ((targets.length + 10 - 1) / 10) m ≤ 99 :=
        le_trans hb90 (by norm_num)
      have hb30 : 30 ≤ batchProgress ((targets.length + 10 - 1) / 10) m := by
        unfold batchProgress
        exact Nat.le_add_right 30 _
      have hle : ((batchProgress ((targets.length + 10 - 1) / 10) m : Nat) : Int) ≤ 99 := by
        exact_mod_cast hb99
      rw [min_eq_right hle]
      refine ⟨rfl, ?_, ?_⟩
      · exact_mod_cast hb30
      · exact_mod_cast hb90
    · intro hk0
      subst hk0
      exact ⟨rfl, rfl⟩

/-- Twelve target addresses: two deep-scan batches (10 + 2). -/
def targetsC9 : List String :=
  ["10.0.0.1", "10.0.0.2", "10.0.0.3", "10.0.0.4", "10.0.0.5", "10.0.0.6",
   "10.0.0.7", "10.0.0.8", "10.0.0.9", "10.0.0.10", "10.0.0.11", "10.0.0.12"]

def envC9 : ScanEnv :=
  { local_subnets := ["10.0.0.0/24"]
    arp_scan := fun _ => []
    ping_sweep := fun _ => []
    get_hostname := fun _ => none
    nmap_scan := fun _ => []
    default_gateway := none
    latency := fun _ _ => none }

def jobC9 : ScanJob := { id := "job-9" }

/-- The cancellation event fires between batch 0 and batch 1: poll 0 reads
`false`, every later poll reads `true`. -/
def cancelC9 : Nat → Bool := fun p => decide (1 ≤ p)

/-- C9 witness: on 12 targets (2 batches) with cancellation observed before
batch 1, only batch 0 is invoked, its partial result stays on the job, and
progress sits at `30 + 60*1/2 = 60`. -/
theorem deep_scan_batches_partition_witness :
    (deepScanPhase envC9 cancelC9 targetsC9 jobC9 [] 0).2.2.2 =
      (List.range 1).map (chunkAt targetsC9) ∧
    (∀ i, i < 1 →
      lookupAssoc (batchKey i)
          (deepScanPhase envC9 cancelC9 targetsC9 jobC9 [] 0).1.partial_results =
        some (PartialVal.nmapRes (envC9.nmap_scan (chunkAt targetsC9 i)))) ∧
    (0 < 1 →
      (deepScanPhase envC9 cancelC9 targetsC9 jobC9 [] 0).1.progress =
        ((30 + 60 * 1 / ((targetsC9.length + 10 - 1) / 10) : Nat) : Int) ∧
      30 ≤ (deepScanPhase envC9 cancelC9 targetsC9 jobC9 [] 0).1.progress ∧
      (deepScanPhase envC9 cancelC9 targetsC9 jobC9 [] 0).1.progress ≤ 90) ∧
    (1 = 0 → (deepScanPhase envC9 cancelC9 targetsC9 jobC9 [] 0).1 = jobC9 ∧
      (deepScanPhase envC9 cancelC9 targetsC9 jobC9 [] 0).2.1 = []) :=
  (deep_scan_batches_partition envC9 cancelC9 targetsC9 jobC9 [] 0 1
      (by decide)).2.2.2.2 (by decide) (by decide) (by decide)
